import Mathlib

/-!
Verification development for the Anbox Platform SDK input-processor contract
(`include/anbox-platform-sdk/input_processor.h`).

The header declares a device-typed input event record (`AnboxInputEvent`),
the device-type enumeration (`AnboxInputDeviceType`) and an abstract class
`anbox::InputProcessor` with two pure virtual operations, `read_event` and
`inject_event`.  The data model below is embedded directly from the header.
The operations are pure virtual (no implementation ships in the repository),
so their behaviour is modelled from the specification: a FIFO queue of
events, with `inject_event` appending to the back and `read_event` removing
from the front, plus the documented timeout discipline and return codes.
-/

/-- Embedded from the header: the `AnboxInputDeviceType` enumeration with its
four members `POINTER`, `KEYBOARD`, `TOUCHPANEL`, `GAMEPAD`. -/
inductive AnboxInputDeviceType where
  | POINTER
  | KEYBOARD
  | TOUCHPANEL
  | GAMEPAD
  deriving DecidableEq, Fintype, Repr

/-- The numeric value the C compiler assigns to each enumerator: the header
writes `POINTER = 0` and lets the remaining members take consecutive values. -/
def AnboxInputDeviceType.toNat : AnboxInputDeviceType → Nat
  | .POINTER => 0
  | .KEYBOARD => 1
  | .TOUCHPANEL => 2
  | .GAMEPAD => 3

/-- Embedded from the header: `struct AnboxInputEvent` with its five fields.
The C fixed-width integer types `int32_t` and `uint16_t` are embedded as
`Int` and `Nat`; the bit-width constraints are captured by
`AnboxInputEvent.wf` below. -/
structure AnboxInputEvent where
  device_type : AnboxInputDeviceType
  device_id : Int
  type : Nat
  code : Nat
  value : Int
  deriving DecidableEq, Repr

/-- The bit-width constraints of the C field types: `device_id` and `value`
are signed 32-bit (`int32_t`), `type` and `code` unsigned 16-bit
(`uint16_t`). -/
def AnboxInputEvent.wf (e : AnboxInputEvent) : Prop :=
  -(2 ^ 31) ≤ e.device_id ∧ e.device_id < 2 ^ 31 ∧
    e.type < 2 ^ 16 ∧ e.code < 2 ^ 16 ∧
    -(2 ^ 31) ≤ e.value ∧ e.value < 2 ^ 31

instance (e : AnboxInputEvent) : Decidable e.wf := by
  unfold AnboxInputEvent.wf
  infer_instance

/-- The Linux errno value `EINVAL` (22), the error code the header documents
for both operations: `returns EINVAL on error occurs`. -/
def EINVAL : Int := 22

/-- The Linux errno value `EIO` (5); the header documents that in
non-blocking mode `read_event` must `return -EIO immediately if no event to
process`. -/
def eioVal : Int := 5

/-- Modelled from the spec: the outcome of a `read_event` call.  The
implementation is not in the repository (the header declares `read_event`
as pure virtual); the documented outcomes are success with an event filled
in, a no-data condition, or an invalid-argument error. -/
inductive ReadResult where
  | success (e : AnboxInputEvent)
  | noData
  | invalidArg
  deriving DecidableEq, Repr

/-- The integer return value of `read_event` for each outcome, as documented
in the header: `0` on success, `-EIO` when no event is pending, `EINVAL` on
an invalid argument. -/
def ReadResult.code : ReadResult → Int
  | .success _ => 0
  | .noData => -eioVal
  | .invalidArg => EINVAL

/-- Modelled from the spec: `inject_event` on the internal FIFO queue.  The
implementation is not in the repository; the spec says the call either
succeeds (returns 0) and enqueues the event at the back of the queue backing
`read_event`, or fails with `EINVAL` on invalid input leaving the queue
unchanged.  Validity of an event is its bit-width well-formedness. -/
def inject_event (q : List AnboxInputEvent) (e : AnboxInputEvent) :
    Int × List AnboxInputEvent :=
  if e.wf then (0, q ++ [e]) else (EINVAL, q)

/-- Modelled from the spec: the wait loop of `read_event` with a
non-negative timeout.  `arr t` is the list of events arriving during
millisecond `t` of the wait; the loop returns the front event as soon as
the queue is non-empty, and gives up with the no-data result when the fuel
(remaining milliseconds) runs out.  The third component is the elapsed
time in milliseconds. -/
def waitLoop (arr : Nat → List AnboxInputEvent) :
    List AnboxInputEvent → Nat → Nat → ReadResult × List AnboxInputEvent × Nat
  | e :: rest, t, _ => (ReadResult.success e, rest, t)
  | [], t, 0 => (ReadResult.noData, [], t)
  | [], t, fuel + 1 => waitLoop arr (arr t) (t + 1) fuel

/-- Modelled from the spec: `read_event` with a non-negative timeout
(milliseconds).  `ptrOk` models whether the output-event pointer argument
is valid; an invalid argument yields `EINVAL` at once, as the header
documents. -/
def read_event_timed (ptrOk : Bool) (q0 : List AnboxInputEvent)
    (arr : Nat → List AnboxInputEvent) (timeout : Nat) :
    ReadResult × List AnboxInputEvent × Nat :=
  if ptrOk then waitLoop arr q0 0 timeout
  else (ReadResult.invalidArg, q0, 0)

/-- Modelled from the spec: the contents of the internal queue `t`
milliseconds after a blocking `read_event` call began, given the initial
queue `q0` and the arrival schedule `arr` (events arriving during
millisecond `t` become visible at `t + 1`). -/
def queueAt (q0 : List AnboxInputEvent) (arr : Nat → List AnboxInputEvent) :
    Nat → List AnboxInputEvent
  | 0 => q0
  | t + 1 => queueAt q0 arr t ++ arr t

/-- The blocking call completes at millisecond `t`: the queue is non-empty
at `t` and was empty at every earlier instant. -/
def returnsAt (q0 : List AnboxInputEvent) (arr : Nat → List AnboxInputEvent)
    (t : Nat) : Prop :=
  queueAt q0 arr t ≠ [] ∧ ∀ u, u < t → queueAt q0 arr u = []

/-- Modelled from the spec: the observable state of a blocking `read_event`
call (negative timeout) at millisecond `t`: `none` while the queue is still
empty (the call is still blocked), `some (e, rest)` when the call completes
by dequeuing the front event `e`. -/
def read_event_blocking (q0 : List AnboxInputEvent)
    (arr : Nat → List AnboxInputEvent) (t : Nat) :
    Option (AnboxInputEvent × List AnboxInputEvent) :=
  match queueAt q0 arr t with
  | [] => none
  | e :: rest => some (e, rest)

/-- Modelled from the spec: an operation on the input processor, for the
trace-level delivery claims.  A `read` here is a successful dequeue (the
timing discipline is irrelevant to delivery order and multiplicity). -/
inductive Op where
  | inject (e : AnboxInputEvent)
  | read

/-- Modelled from the spec: the processor state for the trace model — the
internal FIFO queue together with the history of successfully injected and
successfully delivered events, in order. -/
structure Sys where
  queue : List AnboxInputEvent
  injected : List AnboxInputEvent
  delivered : List AnboxInputEvent

/-- Modelled from the spec: one operation of the trace model.  `inject`
appends a well-formed event to the back of the queue (and rejects an
ill-formed one, leaving the state unchanged); `read` dequeues the front
event when one is pending. -/
def step (s : Sys) : Op → Sys
  | .inject e =>
      if e.wf then
        { s with queue := s.queue ++ [e], injected := s.injected ++ [e] }
      else s
  | .read =>
      match s.queue with
      | [] => s
      | e :: rest => { s with queue := rest, delivered := s.delivered ++ [e] }

/-- Run a sequence of operations from the initial (empty) state. -/
def run (ops : List Op) : Sys :=
  ops.foldl step ⟨[], [], []⟩

/-- A sample well-formed event, used to instantiate theorems with
hypotheses at a concrete input. -/
def sampleEvent : AnboxInputEvent :=
  ⟨AnboxInputDeviceType.KEYBOARD, 1, 1, 28, 1⟩

theorem step_inv (s : Sys) (op : Op)
    (h : s.delivered ++ s.queue = s.injected) :
    (step s op).delivered ++ (step s op).queue = (step s op).injected := by
  obtain ⟨q, inj, del⟩ := s
  dsimp only at h
  cases op with
  | inject e =>
      by_cases hw : e.wf <;> simp [step, hw, ← h, List.append_assoc]
  | read =>
      cases q with
      | nil => simpa [step] using h
      | cons e rest => simp_all [step]

theorem run_inv_aux (ops : List Op) (s : Sys)
    (h : s.delivered ++ s.queue = s.injected) :
    (ops.foldl step s).delivered ++ (ops.foldl step s).queue
      = (ops.foldl step s).injected := by
  induction ops generalizing s with
  | nil => simpa using h
  | cons op rest ih => exact ih (step s op) (step_inv s op h)

/-- C1: every event successfully enqueued via `inject_event` is delivered by
exactly one subsequent successful `read_event` and never a second time:
after any sequence of operations the delivered history followed by the
still-pending queue equals, as a list of full records (all five fields
verbatim, in position), the injected history; consequently every event
value occurs in the delivered history exactly as often as it was injected,
minus the copies still pending. -/
theorem injected_delivered_exactly_once (ops : List Op) :
    (run ops).delivered ++ (run ops).queue = (run ops).injected ∧
      ∀ e : AnboxInputEvent,
        ((run ops).delivered).count e + ((run ops).queue).count e
          = ((run ops).injected).count e := by
  have h : (run ops).delivered ++ (run ops).queue = (run ops).injected :=
    run_inv_aux ops ⟨[], [], []⟩ rfl
  refine ⟨h, fun e => ?_⟩
  rw [← h, List.count_append]

/-- C2: delivery order equals injection order (FIFO): after any sequence of
operations the delivered history is exactly the initial segment of the
injected history of the same length. -/
theorem delivery_follows_injection_order (ops : List Op) :
    (run ops).delivered
      = ((run ops).injected).take ((run ops).delivered).length := by
  have h : (run ops).delivered ++ (run ops).queue = (run ops).injected :=
    run_inv_aux ops ⟨[], [], []⟩ rfl
  rw [← h, List.take_left]

/-- C3: with an empty queue, `read_event(event, 0)` returns the no-data
result immediately (elapsed time 0), without blocking and without
delivering an event. -/
theorem read_event_zero_timeout_empty (arr : Nat → List AnboxInputEvent) :
    read_event_timed true [] arr 0 = (ReadResult.noData, [], 0) := rfl

/-- C4: a `read_event` call with negative timeout returns only after an
event has become available: at every instant before the queue first becomes
non-empty the call is still blocked (it never returns the no-data error),
and at the instant it completes it delivers the front event. -/
theorem read_event_blocking_no_timeout (q0 : List AnboxInputEvent)
    (arr : Nat → List AnboxInputEvent) (t : Nat) (h : returnsAt q0 arr t) :
    (∃ e rest, queueAt q0 arr t = e :: rest ∧
        read_event_blocking q0 arr t = some (e, rest)) ∧
      ∀ u, u < t → read_event_blocking q0 arr u = none := by
  obtain ⟨h1, h2⟩ := h
  constructor
  · cases hq : queueAt q0 arr t with
    | nil => exact absurd hq h1
    | cons e rest => exact ⟨e, rest, rfl, by simp [read_event_blocking, hq]⟩
  · intro u hu
    simp [read_event_blocking, h2 u hu]

/-- C4 witness: concrete instance with initial queue `[sampleEvent]`, no
later arrivals and completion at instant 0. -/
theorem read_event_blocking_no_timeout_witness :
    (∃ e rest, queueAt [sampleEvent] (fun _ => []) 0 = e :: rest ∧
        read_event_blocking [sampleEvent] (fun _ => []) 0 = some (e, rest)) ∧
      ∀ u, u < 0 → read_event_blocking [sampleEvent] (fun _ => []) u = none :=
  read_event_blocking_no_timeout [sampleEvent] (fun _ => []) 0
    ⟨by simp [queueAt], fun u hu => absurd hu (Nat.not_lt_zero u)⟩

/-- C5: every `read_event` call has exactly one of three outcomes: success
(return value 0, event filled in), no event within the timeout (return
value `-EIO`), or invalid argument (return value `EINVAL`). -/
theorem read_event_three_outcomes (ptrOk : Bool) (q0 : List AnboxInputEvent)
    (arr : Nat → List AnboxInputEvent) (T : Nat) :
    (∃ e, (read_event_timed ptrOk q0 arr T).1 = ReadResult.success e ∧
        (read_event_timed ptrOk q0 arr T).1.code = 0) ∨
      ((read_event_timed ptrOk q0 arr T).1 = ReadResult.noData ∧
        (read_event_timed ptrOk q0 arr T).1.code = -eioVal) ∨
      ((read_event_timed ptrOk q0 arr T).1 = ReadResult.invalidArg ∧
        (read_event_timed ptrOk q0 arr T).1.code = EINVAL) := by
  cases hr : (read_event_timed ptrOk q0 arr T).1 with
  | success e => exact Or.inl ⟨e, rfl, rfl⟩
  | noData => exact Or.inr (Or.inl ⟨rfl, rfl⟩)
  | invalidArg => exact Or.inr (Or.inr ⟨rfl, rfl⟩)

theorem waitLoop_all_empty (arr : Nat → List AnboxInputEvent)
    (hA : ∀ u, arr u = []) :
    ∀ fuel t, waitLoop arr [] t fuel = (ReadResult.noData, [], t + fuel) := by
  intro fuel
  induction fuel with
  | zero => intro t; rfl
  | succ n ih =>
      intro t
      have hstep : waitLoop arr ([] : List AnboxInputEvent) t (n + 1)
          = waitLoop arr (arr t) (t + 1) n := rfl
      rw [hstep, hA t, ih (t + 1)]
      have : t + 1 + n = t + (n + 1) := by omega
      rw [this]

/-- C6: with the queue empty and staying empty, `read_event(event, T)` for
T > 0 returns the no-data result after exactly T milliseconds: no earlier
than T, and no longer than necessary beyond T. -/
theorem read_event_timeout_expiry (arr : Nat → List AnboxInputEvent) (T : Nat)
    (_hT : 0 < T) (hA : ∀ u, arr u = []) :
    read_event_timed true [] arr T = (ReadResult.noData, [], T) := by
  have h := waitLoop_all_empty arr hA T 0
  simpa [read_event_timed] using h

/-- C6 witness: concrete instance with no arrivals and timeout 5 ms. -/
theorem read_event_timeout_expiry_witness :
    read_event_timed true [] (fun _ => []) 5 = (ReadResult.noData, [], 5) :=
  read_event_timeout_expiry (fun _ => []) 5 (by decide) (fun u => rfl)

/-- C7: `inject_event` has exactly two outcomes: it returns 0 and the event
is appended to the back of the queue backing `read_event`, or it returns
`EINVAL` and nothing is enqueued. -/
theorem inject_event_two_outcomes (q : List AnboxInputEvent)
    (e : AnboxInputEvent) :
    (e.wf ∧ inject_event q e = (0, q ++ [e])) ∨
      (¬ e.wf ∧ inject_event q e = (EINVAL, q)) := by
  by_cases hw : e.wf
  · exact Or.inl ⟨hw, by simp [inject_event, hw]⟩
  · exact Or.inr ⟨hw, by simp [inject_event, hw]⟩

/-- C8: the input event record consists of exactly the five fields
(`device_type` from a four-member enumeration, `device_id` signed 32-bit,
`type` and `code` unsigned 16-bit, `value` signed 32-bit): two events are
equal iff they agree on those five fields, the enumeration has exactly four
members, and well-formedness is exactly the bit-width constraints. -/
theorem event_record_shape :
    (∀ e₁ e₂ : AnboxInputEvent, e₁ = e₂ ↔
        (e₁.device_type = e₂.device_type ∧ e₁.device_id = e₂.device_id ∧
          e₁.type = e₂.type ∧ e₁.code = e₂.code ∧ e₁.value = e₂.value)) ∧
      Fintype.card AnboxInputDeviceType = 4 ∧
      ∀ e : AnboxInputEvent, e.wf ↔
        (-(2 ^ 31) ≤ e.device_id ∧ e.device_id < 2 ^ 31 ∧
          e.type < 2 ^ 16 ∧ e.code < 2 ^ 16 ∧
          -(2 ^ 31) ≤ e.value ∧ e.value < 2 ^ 31) := by
  refine ⟨fun e₁ e₂ => ?_, by decide, fun e => Iff.rfl⟩
  cases e₁
  cases e₂
  simp

/-- C9: the device-type enumeration defines exactly four members with the
fixed consecutive numeric values POINTER = 0, KEYBOARD = 1, TOUCHPANEL = 2,
GAMEPAD = 3, and every value below 4 is taken by one of them. -/
theorem device_type_enum_members :
    AnboxInputDeviceType.POINTER.toNat = 0 ∧
      AnboxInputDeviceType.KEYBOARD.toNat = 1 ∧
      AnboxInputDeviceType.TOUCHPANEL.toNat = 2 ∧
      AnboxInputDeviceType.GAMEPAD.toNat = 3 ∧
      Fintype.card AnboxInputDeviceType = 4 ∧
      (∀ d : AnboxInputDeviceType, d.toNat < 4) ∧
      ∀ n : Fin 4, ∃ d : AnboxInputDeviceType, d.toNat = n.val := by
  exact ⟨rfl, rfl, rfl, rfl, by decide, by decide, by decide⟩

/-- C10: the no-data return value `-EIO` is distinct from, and of opposite
sign to, the generic error value `EINVAL`, so the return value alone
distinguishes the no-data outcome from the invalid-argument outcome. -/
theorem error_codes_distinguishable :
    (-eioVal ≠ EINVAL) ∧ -eioVal < 0 ∧ 0 < EINVAL ∧
      ∀ r : ReadResult,
        (r.code = -eioVal ↔ r = ReadResult.noData) ∧
          (r.code = EINVAL ↔ r = ReadResult.invalidArg) := by
  refine ⟨by decide, by decide, by decide, fun r => ?_⟩
  cases r <;> simp [ReadResult.code, eioVal, EINVAL]
